import Mathlib

/-!
Verification of the `keadm debug get` core of the kubeedge repository
(file `keadm/cmd/keadm/app/cmd/debug/get.go`) against its natural-language
specification.

The Go code is shallowly embedded:

* Serialized resource documents (the `Value` column of a `dao.Meta` row) are
  modelled as parsed JSON trees (`Json`); Go's `float64` JSON numbers are
  modelled as `Int` (no claim depends on numeric values) and `json.Marshal`
  of a decoded value is the identity on the tree.
* Go's `map[string]interface{}` is modelled as an association list built by
  upsert (`JsonObj`); `json.Unmarshal` into an existing non-nil map keeps
  entries whose keys are absent from the new document (`unmarshalIntoMap`),
  exactly as `encoding/json` does, which is load-bearing for several claims
  because the Go code hoists its scratch maps out of the record loops.
* Fallible Go calls return `Except String`; a Go runtime panic (failed type
  assertion) is the `GoResult.crash` outcome.  The exact text of Go's decode
  and panic messages is not modelled; fixed placeholder strings are used for
  messages the code does not itself format.
* `strings.Split` / `strings.Contains` / `strings.Replace(_,_,_,1)` are
  implemented character-by-character with structural (fuel) recursion so that
  every definition evaluates inside the kernel.

The metadata store and its DAO are not part of the source slice; they are
modelled from the spec (see the `Modelled from the spec:` doc comments).
-/

namespace KE

/-- JSON document trees.  `obj` keeps the textual field order (Go's decoder
collapses duplicate keys with the last occurrence winning; lookups below use
`objGetLast` to reproduce that). -/
inductive Json where
  | null
  | bool (b : Bool)
  | num (n : Int)
  | str (s : String)
  | arr (elems : List Json)
  | obj (fields : List (String × Json))

/-- Go `map[string]interface{}` holding decoded JSON values, as an
association list without duplicate keys (maintained by `upsert`). -/
abbrev JsonObj := List (String × Json)

/-- Consume `sep` as a prefix of `s`, returning the rest on success. -/
def matchSep : List Char → List Char → Option (List Char)
  | [], s => some s
  | _, [] => none
  | c :: cs, d :: ds => if c = d then matchSep cs ds else none

/-- Worker for `goSplit`, structurally recursive on a character budget that
always suffices (each step consumes at least one character of `s`). -/
def splitListAux (sep : List Char) : Nat → List Char → List Char → List (List Char)
  | 0, _, cur => [cur.reverse]
  | fuel + 1, s, cur =>
    match matchSep sep s with
    | some rest => cur.reverse :: splitListAux sep fuel rest []
    | none =>
      match s with
      | [] => [cur.reverse]
      | c :: cs => splitListAux sep fuel cs (c :: cur)

/-- Go `strings.Split(s, sep)` (leftmost non-overlapping occurrences; for an
empty separator the Go behaviour of splitting into characters is never used
by this code, so the defensive `[s]` branch is irrelevant to every claim). -/
def goSplit (s sep : String) : List String :=
  if sep = "" then [s]
  else (splitListAux sep.data (s.data.length + 1) s.data []).map (fun l => String.mk l)

/-- Go `strings.Contains(s, sub)`. -/
def goContains (s sub : String) : Bool :=
  if sub = "" then true
  else
    match goSplit s sub with
    | _ :: _ :: _ => true
    | _ => false

/-- Go `strings.Replace(s, old, new, 1)`: replace the first occurrence only. -/
def goReplaceOnce (s old new : String) : String :=
  match goSplit s old with
  | x :: y :: rest => x ++ new ++ String.intercalate old (y :: rest)
  | _ => s

/-- Last binding of `k` in a decoded field list (Go's decoder lets the last
duplicate key win when it builds a map). -/
def objGetLast : JsonObj → String → Option Json
  | [], _ => none
  | (k1, v1) :: rest, k =>
    match objGetLast rest k with
    | some v => some v
    | none => if k1 = k then some v1 else none

/-- Go map indexing `m[k]` on a `map[string]interface{}`: an absent key and a
stored JSON `null` both read back as the nil interface, modelled as
`Json.null`. -/
def goMapGet (m : JsonObj) (k : String) : Json :=
  match objGetLast m k with
  | some v => v
  | none => Json.null

/-- Go map assignment `m[k] = v`: replace the binding of `k`, else append. -/
def upsert : JsonObj → String → Json → JsonObj
  | [], k, v => [(k, v)]
  | (k1, v1) :: rest, k, v =>
    if k1 = k then (k, v) :: rest else (k1, v1) :: upsert rest k v

/-- Store every field of a decoded JSON object into an existing map. -/
def mergeInto (m : JsonObj) (fields : JsonObj) : JsonObj :=
  fields.foldl (fun acc kv => upsert acc kv.1 kv.2) m

/-- Go `json.Unmarshal(doc, &m)` where `m` is a non-nil
`map[string]interface{}`: a JSON object stores its fields into `m`
(bindings of keys absent from `doc` survive), the literal `null` is a no-op,
and every other document shape is a decode error. -/
def unmarshalIntoMap (j : Json) (m : JsonObj) : Option JsonObj :=
  match j with
  | .obj fields => some (mergeInto m fields)
  | .null => some m
  | _ => none

/-- Placeholder for the text of a Go `encoding/json` decode error (the code
propagates the error value without formatting it, so its text is opaque). -/
def unmarshalErrMsg : String := "json unmarshal error"

/-- Row of the `meta` table (`dao.Meta`).  The Go field `Type` is renamed
`rtype` (`Type` is reserved in Lean) and the serialized `Value` column is
carried as its parsed JSON tree. -/
structure Meta where
  key : String
  rtype : String
  value : Json

/-- Selector filter structure (source `Selector`). -/
structure Selector where
  Key : String
  Value : String
  Exist : Bool
  deriving DecidableEq, Repr

/-- Outcome of a Go call that may also terminate the process by a runtime
panic (failed type assertion): `crash` is the panic outcome. -/
inductive GoResult (α : Type) where
  | ok (val : α)
  | err (msg : String)
  | crash (msg : String)

/-- Dispatch of one comma-separated selector term, mirroring the three
`strings.Contains`/`strings.Split` branches of `SplitSelectorParameters`:
`==` is tested first, then `!=`, then `=`; a term splitting into other than
two parts is a parse error; a term with no operator contributes nothing. -/
def splitTerm (label : String) : Except String (Option Selector) :=
  if goContains label "==" then
    match goSplit label "==" with
    | [k, v] => .ok (some ⟨k, v, true⟩)
    | _ => .error "Arguments in selector form may not have more than one \"==\". "
  else if goContains label "!=" then
    match goSplit label "!=" with
    | [k, v] => .ok (some ⟨k, v, false⟩)
    | _ => .error "Arguments in selector form may not have more than one \"!=\". "
  else if goContains label "=" then
    match goSplit label "=" with
    | [k, v] => .ok (some ⟨k, v, true⟩)
    | _ => .error "Arguments in selector may not have more than one \"=\". "
  else .ok none

/-- Loop of `SplitSelectorParameters` over the comma-separated terms,
accumulating clauses and aborting on the first malformed term. -/
def selLoop : List String → List Selector → Except String (List Selector)
  | [], results => .ok results
  | label :: rest, results =>
    match splitTerm label with
    | .error e => .error e
    | .ok none => selLoop rest results
    | .ok (some sel) => selLoop rest (results ++ [sel])

/-- Source `SplitSelectorParameters`: split the `-l` argument on `,` and
parse each term. -/
def SplitSelectorParameters (args : String) : Except String (List Selector) :=
  selLoop (goSplit args ",") []

/-- Clause loop of `FilterSelector` over `sLabels`, carrying `flag`.  Each
iteration whose left conjunct is still true evaluates
`vLabel.(map[string]interface{})[sl.Key]`, a single-return type assertion
that panics when `vLabel` is neither that map type (nor reached at all when
`flag` is already false, because Go's `&&` short-circuits). -/
def clauseFoldAux (vLabel : Json) : List Selector → Bool → GoResult Bool
  | [], flag => .ok flag
  | sl :: rest, flag =>
    if flag then
      match vLabel with
      | .obj lm =>
        let hit : Bool :=
          match goMapGet lm sl.Key with
          | .str s => s = sl.Value
          | _ => false
        clauseFoldAux vLabel rest (flag && (if sl.Exist then hit else !hit))
      | _ => .crash "interface conversion"
    else clauseFoldAux vLabel rest false

/-- Record loop of `FilterSelector`.  The scratch map `jsonValue` is declared
once outside the loop in the source, so it is threaded through the
recursion: keys absent from the current document keep the previous record's
bindings.  `jsonValue["metadata"].(map[string]interface{})` panics when the
looked-up value is not an object (including the nil read of an absent key). -/
def filterLoop (sLabels : List Selector) :
    List Meta → JsonObj → List Meta → GoResult (List Meta)
  | [], _, results => .ok results
  | v :: rest, jsonValue, results =>
    match unmarshalIntoMap v.value jsonValue with
    | none => .err unmarshalErrMsg
    | some jv =>
      match goMapGet jv "metadata" with
      | .obj md =>
        match goMapGet md "labels" with
        | .null => filterLoop sLabels rest jv (results ++ [v])
        | vLabel =>
          match clauseFoldAux vLabel sLabels true with
          | .crash m => .crash m
          | .err m => .err m
          | .ok flag =>
            filterLoop sLabels rest jv (if flag then results ++ [v] else results)
      | _ => .crash "interface conversion"

/-- Source `FilterSelector`: parse the selector, then keep the records whose
label map satisfies every clause (see `filterLoop` for the quirks). -/
def FilterSelector (data : List Meta) (selector : String) : GoResult (List Meta) :=
  match SplitSelectorParameters selector with
  | .error e => .err e
  | .ok sLabels => filterLoop sLabels data [] []

/-- Resource type constants of the source file and of the beehive `model` /
kubeedge `constants` packages it imports (the status segments are modelled
from the spec's key layout `namespace/resourceType/name`, status records
using a distinct resource-type segment). -/
def ResourceTypeAll : String := "all"

def ResourceTypePod : String := "pod"

def ResourceTypeNode : String := "node"

def ResourceTypeService : String := "service"

def ResourceTypeSecret : String := "secret"

def ResourceTypeConfigmap : String := "configmap"

def ResourceTypeEndpoints : String := "endpoints"

def ResourceTypePodStatus : String := "podstatus"

def ResourceTypeNodeStatus : String := "nodestatus"

def ResourceSep : String := "/"

/-- Source `availableResources`: flag aliases to the quoted type lists used
by the (dead) raw-SQL query builder. -/
def availableResources : List (String × String) :=
  [("all", "'pod','service','secret','configmap','endpoints'"),
   ("po", "'pod'"), ("pod", "'pod'"), ("pods", "'pod'"),
   ("svc", "'service'"), ("service", "'service'"), ("services", "'service'"),
   ("secret", "'secret'"), ("secrets", "'secret'"),
   ("cm", "'configmap'"), ("configmap", "'configmap'"), ("configmaps", "'configmap'"),
   ("ep", "'endpoints'"), ("endpoint", "'endpoints'"), ("endpoints", "'endpoints'")]

/-- Source `IsAvailableResources`: membership in the alias table. -/
def IsAvailableResources (rsT : String) : Bool :=
  (availableResources.lookup rsT).isSome

/-- Flags of the get command that reach the query path (`PrintFlags` and the
output wiring are out of scope of the modelled core). -/
structure GetOptions where
  AllNamespace : Bool
  Namespace : String
  LabelSelector : String
  DataPath : String

/-- Modelled from the spec: beehive's `util.ParseResourceEdge` under the
query operation splits the key on the separator and, for the layout
`namespace/resourceType/name`, returns the namespace segment; for any other
shape it returns empty strings (the call site discards the error). -/
def parseResourceEdgeNamespace (key : String) : String :=
  match goSplit key ResourceSep with
  | [ns, _, _] => ns
  | _ => ""

/-- Source `IsExistName`: a name argument matches by substring containment
against the whole record key (`strings.Index(name, v) != -1`). -/
def IsExistName (resNames : List String) (name : String) : Bool :=
  resNames.any (fun v => goContains name v)

/-- Modelled from the spec: `dao.QueryAllMeta("type", t)` is the store's
scan-by-type operation, returning the matching rows in store order. -/
def queryAllMeta (store : List Meta) (t : String) : List Meta :=
  store.filter (fun m => m.rtype = t)

/-- Modelled from the spec: `dao.QueryMeta("key", k)` is the store's
lookup-by-key operation, returning the zero-or-one matching records. -/
def queryMetaByKey (store : List Meta) (k : String) : List Meta :=
  store.filter (fun m => m.key = k)

/-- Marshal of one queried status row, as `json.Marshal` sees a `dao.Meta`
element of the queried slice (whatever the element representation, the
marshal of the whole slice below is a JSON array, which is all the claims
depend on). -/
def metaToJson (m : Meta) : Json :=
  Json.obj [("Key", .str m.key), ("Type", .str m.rtype), ("Value", m.value)]

/-- Shared body of `getPodsFromDatabase` and `getNodeFromDatabase` (the two
Go functions are textually identical up to the pod/node type constants).
For each base record in namespace scope and name scope, the corresponding
status key is derived by substituting the type segment, the status records
are looked up, and — when any exist — the whole queried slice is marshalled
(a JSON array) and unmarshalled into the scratch status map, after which the
status field would be copied over and the document re-marshalled.  Both
scratch maps are declared once outside the loop in the source and are
therefore threaded through the recursion. -/
def statusMergeLoop (g : GetOptions) (store : List Meta) (resNS : String)
    (resNames : List String) (baseType statusType : String) :
    List Meta → JsonObj → JsonObj → List Meta → Except String (List Meta)
  | [], _, _, results => .ok results
  | v :: rest, mJSON, sJSON, results =>
    if parseResourceEdgeNamespace v.key ≠ resNS ∧ g.AllNamespace = false then
      statusMergeLoop g store resNS resNames baseType statusType rest mJSON sJSON results
    else if resNames ≠ [] ∧ IsExistName resNames v.key = false then
      statusMergeLoop g store resNS resNames baseType statusType rest mJSON sJSON results
    else
      let statusKey :=
        goReplaceOnce v.key (ResourceSep ++ baseType ++ ResourceSep)
          (ResourceSep ++ statusType ++ ResourceSep)
      let statusRecords := queryMetaByKey store statusKey
      if statusRecords.length = 0 then
        statusMergeLoop g store resNS resNames baseType statusType rest mJSON sJSON
          (results ++ [v])
      else
        match unmarshalIntoMap v.value mJSON with
        | none => .error unmarshalErrMsg
        | some mJSON1 =>
          match unmarshalIntoMap (Json.arr (statusRecords.map metaToJson)) sJSON with
          | none => .error unmarshalErrMsg
          | some sJSON1 =>
            let mJSON2 := upsert mJSON1 "status" (goMapGet sJSON1 "status")
            statusMergeLoop g store resNS resNames baseType statusType rest mJSON2 sJSON1
              (results ++ [{ v with value := Json.obj mJSON2 }])

/-- Source `getPodsFromDatabase`. -/
def getPodsFromDatabase (g : GetOptions) (store : List Meta) (resNS : String)
    (resNames : List String) : Except String (List Meta) :=
  statusMergeLoop g store resNS resNames ResourceTypePod ResourceTypePodStatus
    (queryAllMeta store ResourceTypePod) [] [] []

/-- Source `getNodeFromDatabase`. -/
def getNodeFromDatabase (g : GetOptions) (store : List Meta) (resNS : String)
    (resNames : List String) : Except String (List Meta) :=
  statusMergeLoop g store resNS resNames ResourceTypeNode ResourceTypeNodeStatus
    (queryAllMeta store ResourceTypeNode) [] [] []

/-- Source `getSingleResourceFromDatabase`: scan by type, keep records that
pass the namespace check and the name-substring check. -/
def getSingleResourceFromDatabase (g : GetOptions) (store : List Meta)
    (resNS : String) (resNames : List String) (resType : String) : List Meta :=
  (queryAllMeta store resType).filter (fun v =>
    !((parseResourceEdgeNamespace v.key != resNS) && !g.AllNamespace)
      && !(!resNames.isEmpty && !IsExistName resNames v.key))

/-- Source `QueryDataFromDatabase`: dispatch on the raw (unresolved)
resource-type argument; `all` expands to pod, node, then the four single
types in the source's fixed order. -/
def QueryDataFromDatabase (g : GetOptions) (store : List Meta)
    (resType : String) (resNames : List String) : Except String (List Meta) :=
  if resType = ResourceTypePod then
    getPodsFromDatabase g store g.Namespace resNames
  else if resType = ResourceTypeNode then
    getNodeFromDatabase g store g.Namespace resNames
  else if resType = ResourceTypeConfigmap ∨ resType = ResourceTypeSecret
      ∨ resType = ResourceTypeEndpoints ∨ resType = ResourceTypeService then
    .ok (getSingleResourceFromDatabase g store g.Namespace resNames resType)
  else if resType = ResourceTypeAll then
    match getPodsFromDatabase g store g.Namespace resNames with
    | .error e => .error e
    | .ok pods =>
      match getNodeFromDatabase g store g.Namespace resNames with
      | .error e => .error e
      | .ok nodes =>
        .ok (pods ++ nodes
          ++ getSingleResourceFromDatabase g store g.Namespace resNames ResourceTypeConfigmap
          ++ getSingleResourceFromDatabase g store g.Namespace resNames ResourceTypeSecret
          ++ getSingleResourceFromDatabase g store g.Namespace resNames ResourceTypeEndpoints
          ++ getSingleResourceFromDatabase g store g.Namespace resNames ResourceTypeService)
  else
    .error ("Query from database filed, type: " ++ resType ++ ",namespaces: "
      ++ g.Namespace ++ ". ")

/-- Typed reconstructed item of the v1 (complete) pass.  The Go code decodes
each extracted top-level section into the corresponding field of the typed
struct (`ObjectMeta`, `PodSpec`, ...); the embedding carries each section's
JSON (absent sections marshal as `null`, which leaves the zero struct).
Fields a kind does not extract stay `null`. -/
structure V1Object where
  apiVersion : String
  kind : String
  metadata : Json := Json.null
  spec : Json := Json.null
  status : Json := Json.null
  data : Json := Json.null
  secretType : Json := Json.null
  subsets : Json := Json.null

/-- Loop of `ParseMetaToV1List`: dispatch on the record's type tag to one of
five reconstruction branches (pod, service, secret, configmap, endpoints;
there is no node branch), threading the scratch map `value` that the source
declares once before the loop. -/
def parseV1Loop :
    List Meta → JsonObj → List V1Object → List V1Object → List V1Object →
    List V1Object → List V1Object →
    Except String (List V1Object × List V1Object × List V1Object × List V1Object × List V1Object)
  | [], _, pods, svcs, secrets, cms, eps => .ok (pods, svcs, secrets, cms, eps)
  | v :: rest, value, pods, svcs, secrets, cms, eps =>
    if v.rtype = ResourceTypePod then
      match unmarshalIntoMap v.value value with
      | none => .error unmarshalErrMsg
      | some value1 =>
        let pod : V1Object :=
          { apiVersion := "v1", kind := v.rtype,
            metadata := goMapGet value1 "metadata", spec := goMapGet value1 "spec",
            status := goMapGet value1 "status" }
        parseV1Loop rest value1 (pods ++ [pod]) svcs secrets cms eps
    else if v.rtype = ResourceTypeService then
      match unmarshalIntoMap v.value value with
      | none => .error unmarshalErrMsg
      | some value1 =>
        let svc : V1Object :=
          { apiVersion := "v1", kind := v.rtype,
            metadata := goMapGet value1 "metadata", spec := goMapGet value1 "spec",
            status := goMapGet value1 "status" }
        parseV1Loop rest value1 pods (svcs ++ [svc]) secrets cms eps
    else if v.rtype = ResourceTypeSecret then
      match unmarshalIntoMap v.value value with
      | none => .error unmarshalErrMsg
      | some value1 =>
        let secret : V1Object :=
          { apiVersion := "v1", kind := v.rtype,
            metadata := goMapGet value1 "metadata", data := goMapGet value1 "data",
            secretType := goMapGet value1 "type" }
        parseV1Loop rest value1 pods svcs (secrets ++ [secret]) cms eps
    else if v.rtype = ResourceTypeConfigmap then
      match unmarshalIntoMap v.value value with
      | none => .error unmarshalErrMsg
      | some value1 =>
        let cmp : V1Object :=
          { apiVersion := "v1", kind := v.rtype,
            metadata := goMapGet value1 "metadata", data := goMapGet value1 "data" }
        parseV1Loop rest value1 pods svcs secrets (cms ++ [cmp]) eps
    else if v.rtype = ResourceTypeEndpoints then
      match unmarshalIntoMap v.value value with
      | none => .error unmarshalErrMsg
      | some value1 =>
        let ep : V1Object :=
          { apiVersion := "v1", kind := v.rtype,
            metadata := goMapGet value1 "metadata", subsets := goMapGet value1 "subsets" }
        parseV1Loop rest value1 pods svcs secrets cms (eps ++ [ep])
    else
      .error ("Parsing failed, unrecognized type: " ++ v.rtype ++ ". ")

/-- Source `ParseMetaToV1List` (the complete/serialization pass; the
minimal/table pass `ParseMetaToAPIList` runs the identical switch over the
same section extractions, so one embedding covers the dispatch behaviour of
both). -/
def ParseMetaToV1List (results : List Meta) :
    Except String (List V1Object × List V1Object × List V1Object × List V1Object × List V1Object) :=
  parseV1Loop results [] [] [] [] [] []

/-- Object handed to the generic printer by `JSONYamlPrint`: either a
standalone item or a synthetic `kind: List, apiVersion: v1` container with
the given items. -/
inductive Emit where
  | single (o : V1Object)
  | listOf (items : List V1Object)

/-- One kind block of `JSONYamlPrint`: the state is the shared `list.Items`
accumulator (declared once before all five blocks in the source) paired with
the objects printed so far.  A kind with one item prints it standalone; a
kind with two or more appends them to the shared accumulator and prints the
accumulator as the `List` container. -/
def emitKind (st : List V1Object × List Emit) (kindItems : List V1Object) :
    List V1Object × List Emit :=
  match kindItems with
  | [] => st
  | [o] => (st.1, st.2 ++ [Emit.single o])
  | items => (st.1 ++ items, st.2 ++ [Emit.listOf (st.1 ++ items)])

/-- Source `JSONYamlPrint`: reconstruct, then emit the five kinds in the
fixed order pod, service, secret, configmap, endpoints. -/
def JSONYamlPrint (results : List Meta) : Except String (List Emit) :=
  match ParseMetaToV1List results with
  | .error e => .error e
  | .ok (pods, svcs, secrets, cms, eps) =>
    .ok (emitKind (emitKind (emitKind (emitKind (emitKind ([], []) pods) svcs) secrets) cms) eps).2

/-- Spec-side description of a malformed selector term: the first operator
found (testing `==`, then `!=`, then `=`) occurs more than once, so the term
splits into more than two sides. -/
def termBad (t : String) : Bool :=
  if goContains t "==" then (goSplit t "==").length ≠ 2
  else if goContains t "!=" then (goSplit t "!=").length ≠ 2
  else if goContains t "=" then (goSplit t "=").length ≠ 2
  else false

/-- Spec-side clause of one selector term: the first operator found (testing
`==`, then `!=`, then `=`) splits the term into key and value; `==`/`=`
give an `Exist = true` clause, `!=` gives `Exist = false`; a term with no
operator yields no clause. -/
def termClauseOpt (t : String) : Option Selector :=
  if goContains t "==" then
    match goSplit t "==" with
    | [k, v] => some ⟨k, v, true⟩
    | _ => none
  else if goContains t "!=" then
    match goSplit t "!=" with
    | [k, v] => some ⟨k, v, false⟩
    | _ => none
  else if goContains t "=" then
    match goSplit t "=" with
    | [k, v] => some ⟨k, v, true⟩
    | _ => none
  else none

/-- Error message reported for a malformed term, per the operator found. -/
def termErrMsg (t : String) : String :=
  if goContains t "==" then "Arguments in selector form may not have more than one \"==\". "
  else if goContains t "!=" then "Arguments in selector form may not have more than one \"!=\". "
  else "Arguments in selector may not have more than one \"=\". "

/-- Term containing none of the three selector operators. -/
def termNoOp (t : String) : Bool :=
  !goContains t "==" && !goContains t "!=" && !goContains t "="

/-- Well-formed record document for the selector filter: a JSON object whose
`metadata` is an object and whose `metadata.labels` is absent, `null`, or an
object. -/
def docOk (j : Json) : Bool :=
  match j with
  | .obj fields =>
    match objGetLast fields "metadata" with
    | some (.obj md) =>
      match goMapGet md "labels" with
      | .null => true
      | .obj _ => true
      | _ => false
    | _ => false
  | _ => false

/-- Label map read from a document's `metadata.labels` (absent or `null`
reads as `null`, like the nil interface in Go). -/
def specLabelsOf (j : Json) : Json :=
  match j with
  | .obj fields =>
    match objGetLast fields "metadata" with
    | some (.obj md) => goMapGet md "labels"
    | _ => .null
  | _ => .null

/-- Spec-side satisfaction of one clause against a label map: an
`Exist = true` clause requires the label to be present with exactly the
clause value (as a string); an `Exist = false` clause holds whenever the
label's value differs from the clause value, in particular when the key is
absent. -/
def clauseHolds (lm : JsonObj) (c : Selector) : Bool :=
  let hit : Bool :=
    match goMapGet lm c.Key with
    | .str s => s = c.Value
    | _ => false
  if c.Exist then hit else !hit

/-- Spec-side keep decision of the selector filter, from the claim's words:
a document with no labels section is kept regardless of the clauses;
otherwise the record is kept iff every clause holds. -/
def keepDoc (clauses : List Selector) (j : Json) : Bool :=
  match specLabelsOf j with
  | .null => true
  | .obj lm => clauses.all (clauseHolds lm)
  | _ => true

/-- Keys of a Go map representation are pairwise distinct. -/
def keysNodup (m : JsonObj) : Prop :=
  (m.map Prod.fst).Nodup

/-- Default options of the demo invocations: namespace `default`, no
all-namespaces flag. -/
def gDef : GetOptions := ⟨false, "default", "", ""⟩

/-- Base pod record of the demo store. -/
def basePodRec : Meta :=
  ⟨"default/pod/nginx", "pod",
    Json.obj [("metadata", Json.obj [("name", Json.str "nginx")]),
      ("spec", Json.obj [("nodeName", Json.str "edge")]),
      ("status", Json.obj [("phase", Json.str "Pending")])]⟩

/-- Status record matching `basePodRec` by type-segment substitution. -/
def podStatusRec : Meta :=
  ⟨"default/podstatus/nginx", "podstatus",
    Json.obj [("status", Json.obj [("phase", Json.str "Running")])]⟩

/-- Pod record carrying a `status` section (for the stale-map experiment). -/
def podRecA : Meta :=
  ⟨"default/pod/a", "pod",
    Json.obj [("metadata", Json.obj [("name", Json.str "a")]),
      ("spec", Json.obj []),
      ("status", Json.obj [("phase", Json.str "Running")])]⟩

/-- Pod record with no `status` section at all. -/
def podRecB : Meta :=
  ⟨"default/pod/b", "pod",
    Json.obj [("metadata", Json.obj [("name", Json.str "b")]),
      ("spec", Json.obj [])]⟩

/-- Service records of the list-accumulation demo. -/
def svcRec1 : Meta :=
  ⟨"default/service/s1", "service",
    Json.obj [("metadata", Json.obj [("name", Json.str "s1")]),
      ("spec", Json.obj []), ("status", Json.obj [])]⟩

def svcRec2 : Meta :=
  ⟨"default/service/s2", "service",
    Json.obj [("metadata", Json.obj [("name", Json.str "s2")]),
      ("spec", Json.obj []), ("status", Json.obj [])]⟩

/-- Node record as retrieved under the `all` pseudo-type. -/
def nodeRec : Meta :=
  ⟨"default/node/edge-node", "node",
    Json.obj [("metadata", Json.obj [("name", Json.str "edge-node")]),
      ("status", Json.obj [])]⟩

/-! Helper lemmas about the Go-map embedding. -/

lemma mem_keys_upsert {m : JsonObj} {k a : String} {v : Json}
    (h : a ∈ (upsert m k v).map Prod.fst) : a ∈ m.map Prod.fst ∨ a = k := by
  induction m with
  | nil =>
    simp only [upsert, List.map_cons, List.map_nil, List.mem_cons,
      List.not_mem_nil, or_false] at h
    right; exact h
  | cons hd tl ih =>
    obtain ⟨k1, v1⟩ := hd
    by_cases hk : k1 = k
    · simp only [upsert, if_pos hk, List.map_cons, List.mem_cons] at h
      simp only [List.map_cons, List.mem_cons]
      rcases h with h | h
      · right; exact h
      · left; right; exact h
    · simp only [upsert, if_neg hk, List.map_cons, List.mem_cons] at h
      simp only [List.map_cons, List.mem_cons]
      rcases h with h | h
      · left; left; exact h
      · rcases ih h with h1 | h1
        · left; right; exact h1
        · right; exact h1

lemma keysNodup_upsert {m : JsonObj} (k : String) (v : Json) (h : keysNodup m) :
    keysNodup (upsert m k v) := by
  induction m with
  | nil => simp [keysNodup, upsert]
  | cons hd tl ih =>
    obtain ⟨k1, v1⟩ := hd
    simp only [keysNodup, List.map_cons, List.nodup_cons] at h
    by_cases hk : k1 = k
    · subst hk
      have hrw : upsert ((k1, v1) :: tl) k1 v = (k1, v) :: tl := by simp [upsert]
      rw [hrw]
      simp only [keysNodup, List.map_cons, List.nodup_cons]
      exact h
    · have htl := ih h.2
      simp only [keysNodup, upsert, if_neg hk, List.map_cons, List.nodup_cons]
      refine ⟨fun hmem => ?_, htl⟩
      rcases mem_keys_upsert hmem with h1 | h1
      · exact h.1 h1
      · exact hk h1

lemma objGetLast_of_notMem {m : JsonObj} {q : String}
    (h : q ∉ m.map Prod.fst) : objGetLast m q = none := by
  induction m with
  | nil => rfl
  | cons hd tl ih =>
    obtain ⟨k1, v1⟩ := hd
    simp only [List.map_cons, List.mem_cons, not_or] at h
    have hne : ¬ k1 = q := fun hh => h.1 hh.symm
    simp [objGetLast, ih h.2, hne]

lemma objGetLast_upsert {m : JsonObj} (h : keysNodup m) (k q : String) (v : Json) :
    objGetLast (upsert m k v) q = if q = k then some v else objGetLast m q := by
  induction m with
  | nil =>
    by_cases hq : q = k
    · simp [upsert, objGetLast, hq]
    · have hne : ¬ k = q := fun hh => hq hh.symm
      simp [upsert, objGetLast, hq, hne]
  | cons hd tl ih =>
    obtain ⟨k1, v1⟩ := hd
    simp only [keysNodup, List.map_cons, List.nodup_cons] at h
    by_cases hk : k1 = k
    · subst hk
      simp only [upsert, if_pos rfl]
      by_cases hq : q = k1
      · subst hq
        have hnone : objGetLast tl q = none := objGetLast_of_notMem h.1
        simp [objGetLast, hnone]
      · have hne : ¬ k1 = q := fun hh => hq hh.symm
        simp [objGetLast, hq, hne]
    · have htl := ih h.2
      simp only [upsert, if_neg hk, objGetLast, htl]
      by_cases hq : q = k
      · simp [hq]
      · simp [hq]

lemma keysNodup_mergeInto {m : JsonObj} (fs : JsonObj) (h : keysNodup m) :
    keysNodup (mergeInto m fs) := by
  induction fs generalizing m with
  | nil => simpa [mergeInto] using h
  | cons hd tl ih =>
    simpa [mergeInto, List.foldl_cons] using ih (keysNodup_upsert hd.1 hd.2 h)

lemma objGetLast_mergeInto {m : JsonObj} (fs : JsonObj) (h : keysNodup m) (q : String) :
    objGetLast (mergeInto m fs) q =
      match objGetLast fs q with
      | some w => some w
      | none => objGetLast m q := by
  induction fs generalizing m with
  | nil => simp [mergeInto, objGetLast]
  | cons hd tl ih =>
    obtain ⟨k1, v1⟩ := hd
    have step : mergeInto m ((k1, v1) :: tl) = mergeInto (upsert m k1 v1) tl := by
      simp [mergeInto, List.foldl_cons]
    rw [step, ih (keysNodup_upsert k1 v1 h)]
    rcases htl : objGetLast tl q with _ | w
    · rw [objGetLast_upsert h k1 q v1]
      by_cases hq : q = k1
      · subst hq
        simp [objGetLast, htl]
      · have hne : ¬ k1 = q := fun hh => hq hh.symm
        simp [objGetLast, htl, hq, hne]
    · simp [objGetLast, htl]

/-! Characterization of the selector filter on well-formed documents. -/

lemma clauseFoldAux_obj (lm : JsonObj) (sls : List Selector) :
    ∀ flag, clauseFoldAux (Json.obj lm) sls flag = .ok (flag && sls.all (clauseHolds lm)) := by
  induction sls with
  | nil => intro flag; simp [clauseFoldAux]
  | cons sl rest ih =>
    intro flag
    cases flag with
    | false => simp [clauseFoldAux, ih]
    | true =>
      simp only [clauseFoldAux, if_true]
      rw [ih]
      simp [clauseHolds, List.all_cons, Bool.and_assoc]

lemma docOk_spec {j : Json} (h : docOk j = true) :
    ∃ fields md, j = Json.obj fields ∧ objGetLast fields "metadata" = some (Json.obj md) ∧
      (goMapGet md "labels" = Json.null ∨ ∃ lm, goMapGet md "labels" = Json.obj lm) := by
  cases j with
  | obj fields =>
    refine ⟨fields, ?_⟩
    rcases hmd : objGetLast fields "metadata" with _ | mdj
    · simp [docOk, hmd] at h
    · cases mdj with
      | obj md =>
        refine ⟨md, rfl, rfl, ?_⟩
        rcases hl : goMapGet md "labels" with _ | b | n | s | elems | lm
        · left; rfl
        · simp [docOk, hmd, hl] at h
        · simp [docOk, hmd, hl] at h
        · simp [docOk, hmd, hl] at h
        · simp [docOk, hmd, hl] at h
        · right; exact ⟨lm, rfl⟩
      | null => simp [docOk, hmd] at h
      | bool b => simp [docOk, hmd] at h
      | num n => simp [docOk, hmd] at h
      | str s => simp [docOk, hmd] at h
      | arr elems => simp [docOk, hmd] at h
  | null => simp [docOk] at h
  | bool b => simp [docOk] at h
  | num n => simp [docOk] at h
  | str s => simp [docOk] at h
  | arr elems => simp [docOk] at h

lemma filterLoop_wellformed (sLabels : List Selector) :
    ∀ (records : List Meta) (st : JsonObj) (acc : List Meta), keysNodup st →
      (∀ r ∈ records, docOk r.value = true) →
      filterLoop sLabels records st acc =
        .ok (acc ++ records.filter (fun r => keepDoc sLabels r.value)) := by
  intro records
  induction records with
  | nil => intro st acc _ _; simp [filterLoop]
  | cons v rest ih =>
    intro st acc hst hwf
    obtain ⟨fields, md, hval, hmd, hlab⟩ := docOk_spec (hwf v (by simp))
    have hwrest : ∀ r ∈ rest, docOk r.value = true := fun r hr => hwf r (by simp [hr])
    have hmerge : unmarshalIntoMap v.value st = some (mergeInto st fields) := by
      rw [hval]; rfl
    have hmdget : goMapGet (mergeInto st fields) "metadata" = Json.obj md := by
      unfold goMapGet
      rw [objGetLast_mergeInto fields hst "metadata", hmd]
    have hnodup : keysNodup (mergeInto st fields) := keysNodup_mergeInto fields hst
    have hkeep : specLabelsOf v.value = goMapGet md "labels" := by
      rw [hval]; simp [specLabelsOf, hmd]
    rcases hlab with hnull | ⟨lm, hobj⟩
    · have hkd : keepDoc sLabels v.value = true := by
        unfold keepDoc; rw [hkeep, hnull]
      simp only [filterLoop, hmerge, hmdget, hnull]
      rw [ih (mergeInto st fields) (acc ++ [v]) hnodup hwrest]
      simp [List.filter_cons, hkd]
    · have hkd : keepDoc sLabels v.value = sLabels.all (clauseHolds lm) := by
        unfold keepDoc; rw [hkeep, hobj]
      simp only [filterLoop, hmerge, hmdget, hobj]
      rw [clauseFoldAux_obj lm sLabels true]
      simp only [Bool.true_and]
      cases hall : sLabels.all (clauseHolds lm) with
      | true =>
        rw [if_pos rfl, ih (mergeInto st fields) (acc ++ [v]) hnodup hwrest]
        simp [List.filter_cons, hkd, hall]
      | false =>
        rw [if_neg Bool.false_ne_true, ih (mergeInto st fields) acc hnodup hwrest]
        simp [List.filter_cons, hkd, hall]

/-! Characterization of the selector parser. -/

lemma splitTerm_eq (t : String) :
    splitTerm t = if termBad t then .error (termErrMsg t) else .ok (termClauseOpt t) := by
  unfold splitTerm termBad termErrMsg termClauseOpt
  by_cases h1 : goContains t "==" = true
  · simp only [h1, if_true]
    rcases hs : goSplit t "==" with _ | ⟨k, _ | ⟨v, _ | rest⟩⟩ <;> simp [hs]
  · simp only [h1, Bool.not_eq_true] at *
    simp only [h1, Bool.false_eq_true, if_false]
    by_cases h2 : goContains t "!=" = true
    · simp only [h2, if_true]
      rcases hs : goSplit t "!=" with _ | ⟨k, _ | ⟨v, _ | rest⟩⟩ <;> simp [hs]
    · simp only [Bool.not_eq_true] at h2
      simp only [h2, Bool.false_eq_true, if_false]
      by_cases h3 : goContains t "=" = true
      · simp only [h3, if_true]
        rcases hs : goSplit t "=" with _ | ⟨k, _ | ⟨v, _ | rest⟩⟩ <;> simp [hs]
      · simp only [Bool.not_eq_true] at h3
        simp [h3]

lemma selLoop_ok_of_noBad :
    ∀ (ts : List String) (acc : List Selector), (∀ t ∈ ts, termBad t = false) →
      selLoop ts acc = .ok (acc ++ ts.filterMap termClauseOpt) := by
  intro ts
  induction ts with
  | nil => intro acc _; simp [selLoop]
  | cons t rest ih =>
    intro acc hnb
    have hb : termBad t = false := hnb t (by simp)
    have hst : splitTerm t = .ok (termClauseOpt t) := by
      rw [splitTerm_eq, hb]; simp
    have hrest : ∀ u ∈ rest, termBad u = false := fun u hu => hnb u (by simp [hu])
    rcases hc : termClauseOpt t with _ | sel
    · simp only [selLoop, hst, hc]
      rw [ih acc hrest]
      simp [List.filterMap_cons, hc]
    · simp only [selLoop, hst, hc]
      rw [ih (acc ++ [sel]) hrest]
      simp [List.filterMap_cons, hc]

lemma selLoop_error_iff :
    ∀ (ts : List String) (acc : List Selector),
      (∃ e, selLoop ts acc = .error e) ↔ ∃ t ∈ ts, termBad t = true := by
  intro ts
  induction ts with
  | nil => intro acc; simp [selLoop]
  | cons t rest ih =>
    intro acc
    cases hb : termBad t with
    | true =>
      have hst : splitTerm t = .error (termErrMsg t) := by
        rw [splitTerm_eq, hb]; simp
      simp only [selLoop, hst]
      constructor
      · intro _; exact ⟨t, by simp, hb⟩
      · intro _; exact ⟨termErrMsg t, rfl⟩
    | false =>
      have hst : splitTerm t = .ok (termClauseOpt t) := by
        rw [splitTerm_eq, hb]; simp
      rcases hc : termClauseOpt t with _ | sel
      · simp only [selLoop, hst, hc]
        rw [ih acc]
        constructor
        · rintro ⟨u, hu, hbu⟩; exact ⟨u, by simp [hu], hbu⟩
        · rintro ⟨u, hu, hbu⟩
          rcases (by simpa using hu) with h | h
          · subst h; rw [hb] at hbu; exact absurd hbu (by simp)
          · exact ⟨u, h, hbu⟩
      · simp only [selLoop, hst, hc]
        rw [ih (acc ++ [sel])]
        constructor
        · rintro ⟨u, hu, hbu⟩; exact ⟨u, by simp [hu], hbu⟩
        · rintro ⟨u, hu, hbu⟩
          rcases (by simpa using hu) with h | h
          · subst h; rw [hb] at hbu; exact absurd hbu (by simp)
          · exact ⟨u, h, hbu⟩

lemma splitTerm_of_noop {t : String} (h : termNoOp t = true) : splitTerm t = .ok none := by
  have h1 : goContains t "==" = false := by
    cases hc : goContains t "==" with
    | false => rfl
    | true => simp [termNoOp, hc] at h
  have h2 : goContains t "!=" = false := by
    cases hc : goContains t "!=" with
    | false => rfl
    | true => simp [termNoOp, hc] at h
  have h3 : goContains t "=" = false := by
    cases hc : goContains t "=" with
    | false => rfl
    | true => simp [termNoOp, hc] at h
  unfold splitTerm
  simp [h1, h2, h3]

lemma selLoop_drop_noop {t : String} (h : termNoOp t = true) :
    ∀ (ts1 ts2 : List String) (acc : List Selector),
      selLoop (ts1 ++ t :: ts2) acc = selLoop (ts1 ++ ts2) acc := by
  intro ts1
  induction ts1 with
  | nil =>
    intro ts2 acc
    simp [selLoop, splitTerm_of_noop h]
  | cons u rest ih =>
    intro ts2 acc
    simp only [List.cons_append, selLoop]
    rcases hu : splitTerm u with e | (_ | sel) <;> simp [ih]

/-! Namespace-scoping invariant of the status-merging retrieval loops. -/

lemma statusMergeLoop_ns (g : GetOptions) (store : List Meta) (resNS : String)
    (resNames : List String) (bt stt : String) :
    ∀ (records : List Meta) (mj sj : JsonObj) (acc out : List Meta),
      statusMergeLoop g store resNS resNames bt stt records mj sj acc = .ok out →
      (∀ r ∈ acc, parseResourceEdgeNamespace r.key = resNS ∨ g.AllNamespace = true) →
      ∀ r ∈ out, parseResourceEdgeNamespace r.key = resNS ∨ g.AllNamespace = true := by
  intro records
  induction records with
  | nil =>
    intro mj sj acc out hok hacc
    simp only [statusMergeLoop] at hok
    cases hok
    exact hacc
  | cons v rest ih =>
    intro mj sj acc out hok hacc
    by_cases h1 : parseResourceEdgeNamespace v.key ≠ resNS ∧ g.AllNamespace = false
    · rw [statusMergeLoop, if_pos h1] at hok
      exact ih mj sj acc out hok hacc
    · have hv : parseResourceEdgeNamespace v.key = resNS ∨ g.AllNamespace = true := by
        rcases not_and_or.mp h1 with h | h
        · left; exact not_not.mp h
        · right; simpa [Bool.not_eq_false] using h
      rw [statusMergeLoop, if_neg h1] at hok
      by_cases h2 : resNames ≠ [] ∧ IsExistName resNames v.key = false
      · rw [if_pos h2] at hok
        exact ih mj sj acc out hok hacc
      · rw [if_neg h2] at hok
        by_cases h3 : (queryMetaByKey store
            (goReplaceOnce v.key (ResourceSep ++ bt ++ ResourceSep)
              (ResourceSep ++ stt ++ ResourceSep))).length = 0
        · rw [if_pos h3] at hok
          refine ih _ _ _ _ hok ?_
          intro r hr
          rcases (by simpa using hr) with h | h
          · exact hacc r (by simpa using h)
          · subst h; exact hv
        · rw [if_neg h3] at hok
          rcases hm : unmarshalIntoMap v.value mj with _ | mj1
          · rw [hm] at hok; cases hok
          · rw [hm] at hok
            simp only [unmarshalIntoMap] at hok
            cases hok

/-- With the all-namespaces flag set, the namespace test of the status-merge
loop never fires: the outcome does not depend on the requested namespace at
all, and it is the name-only-filtered scan whenever every kept record lacks
a status record (the decode error of the broken merge otherwise). -/
lemma statusMergeLoop_allNamespaces (g : GetOptions) (store : List Meta) (resNS : String)
    (resNames : List String) (bt stt : String) (hA : g.AllNamespace = true) :
    ∀ (records : List Meta) (mj sj : JsonObj) (acc : List Meta),
      statusMergeLoop g store resNS resNames bt stt records mj sj acc =
        if (records.filter (fun v => !(!resNames.isEmpty && !IsExistName resNames v.key))).all
            (fun v => decide ((queryMetaByKey store (goReplaceOnce v.key
              (ResourceSep ++ bt ++ ResourceSep) (ResourceSep ++ stt ++ ResourceSep))).length = 0))
        then .ok (acc ++ records.filter (fun v => !(!resNames.isEmpty && !IsExistName resNames v.key)))
        else .error unmarshalErrMsg := by
  intro records
  induction records with
  | nil => intro mj sj acc; simp [statusMergeLoop]
  | cons v rest ih =>
    intro mj sj acc
    have hn1 : ¬(parseResourceEdgeNamespace v.key ≠ resNS ∧ g.AllNamespace = false) := by
      rintro ⟨-, hfalse⟩
      rw [hA] at hfalse
      exact absurd hfalse (by simp)
    rw [statusMergeLoop, if_neg hn1]
    by_cases h2 : resNames ≠ [] ∧ IsExistName resNames v.key = false
    · have hempty : resNames.isEmpty = false := by
        cases resNames with
        | nil => exact absurd rfl h2.1
        | cons a as => rfl
      have hcond : (!(!resNames.isEmpty && !IsExistName resNames v.key)) = false := by
        simp [hempty, h2.2]
      have hfilter : List.filter (fun v => !(!resNames.isEmpty && !IsExistName resNames v.key)) (v :: rest)
          = List.filter (fun v => !(!resNames.isEmpty && !IsExistName resNames v.key)) rest := by
        rw [List.filter_cons]
        simp [hcond]
      rw [if_pos h2, ih, hfilter]
    · have hcond : (!(!resNames.isEmpty && !IsExistName resNames v.key)) = true := by
        rcases not_and_or.mp h2 with h | h
        · have hnil : resNames = [] := not_not.mp h
          simp [hnil]
        · have hie : IsExistName resNames v.key = true := by
            cases hie0 : IsExistName resNames v.key with
            | true => rfl
            | false => exact absurd hie0 h
          simp [hie]
      rw [if_neg h2]
      by_cases h3 : (queryMetaByKey store (goReplaceOnce v.key
          (ResourceSep ++ bt ++ ResourceSep) (ResourceSep ++ stt ++ ResourceSep))).length = 0
      · have hdec : decide ((queryMetaByKey store (goReplaceOnce v.key
            (ResourceSep ++ bt ++ ResourceSep)
            (ResourceSep ++ stt ++ ResourceSep))).length = 0) = true := by simp [h3]
        have hfilter : List.filter (fun v => !(!resNames.isEmpty && !IsExistName resNames v.key)) (v :: rest)
            = v :: List.filter (fun v => !(!resNames.isEmpty && !IsExistName resNames v.key)) rest := by
          rw [List.filter_cons]
          simp [hcond]
        rw [if_pos h3, ih, hfilter]
        simp only [List.all_cons, hdec, Bool.true_and, List.append_assoc, List.singleton_append]
      · have hdec : decide ((queryMetaByKey store (goReplaceOnce v.key
            (ResourceSep ++ bt ++ ResourceSep)
            (ResourceSep ++ stt ++ ResourceSep))).length = 0) = false := by simp [h3]
        have hfilter : List.filter (fun v => !(!resNames.isEmpty && !IsExistName resNames v.key)) (v :: rest)
            = v :: List.filter (fun v => !(!resNames.isEmpty && !IsExistName resNames v.key)) rest := by
          rw [List.filter_cons]
          simp [hcond]
        rw [if_neg h3, hfilter]
        rcases hm : unmarshalIntoMap v.value mj with _ | mj1
        · simp [hm, List.all_cons, hdec]
        · simp [hm, unmarshalIntoMap, List.all_cons, hdec]

/-- Records of namespace `default` carrying labels `env=prod,tier=web`. -/
def rW1 : Meta :=
  ⟨"default/pod/w1", "pod",
    Json.obj [("metadata", Json.obj [("name", Json.str "w1"),
        ("labels", Json.obj [("env", Json.str "prod"), ("tier", Json.str "web")])]),
      ("spec", Json.obj []), ("status", Json.obj [])]⟩

def rW2 : Meta :=
  ⟨"default/pod/w2", "pod",
    Json.obj [("metadata", Json.obj [("name", Json.str "w2"),
        ("labels", Json.obj [("env", Json.str "prod"), ("tier", Json.str "web")])]),
      ("spec", Json.obj []), ("status", Json.obj [])]⟩

/-- Record labelled `env=prod,tier=cache`. -/
def rC : Meta :=
  ⟨"default/pod/c", "pod",
    Json.obj [("metadata", Json.obj [("name", Json.str "c"),
        ("labels", Json.obj [("env", Json.str "prod"), ("tier", Json.str "cache")])]),
      ("spec", Json.obj []), ("status", Json.obj [])]⟩

/-- Records whose metadata has no labels section at all. -/
def rN1 : Meta :=
  ⟨"default/pod/n1", "pod",
    Json.obj [("metadata", Json.obj [("name", Json.str "n1")]),
      ("spec", Json.obj []), ("status", Json.obj [])]⟩

def rN2 : Meta :=
  ⟨"default/pod/n2", "pod",
    Json.obj [("metadata", Json.obj [("name", Json.str "n2")]),
      ("spec", Json.obj []), ("status", Json.obj [])]⟩

/-- Configmap records in two different namespaces. -/
def cmDefault : Meta :=
  ⟨"default/configmap/c1", "configmap",
    Json.obj [("metadata", Json.obj [("name", Json.str "c1")]), ("data", Json.obj [])]⟩

def cmOther : Meta :=
  ⟨"other/configmap/c2", "configmap",
    Json.obj [("metadata", Json.obj [("name", Json.str "c2")]), ("data", Json.obj [])]⟩

/-- Pod record in namespace `other` (no matching status record exists). -/
def podOther : Meta :=
  ⟨"other/pod/web", "pod",
    Json.obj [("metadata", Json.obj [("name", Json.str "web")]),
      ("spec", Json.obj []), ("status", Json.obj [])]⟩

/-! Claim theorems. -/

/-- C1 (code_bug evaluation): with a status record present for a selected pod
(`default/podstatus/nginx` matching `default/pod/nginx`), `getPodsFromDatabase`
aborts with a decode error — the queried status slice is marshalled whole,
producing a JSON array that can never be unmarshalled into the scratch
`map[string]interface{}` — so the status merge the claim describes is
unreachable; with no status record the base record is returned unmodified,
as the claim's second half states. -/
theorem getPodsFromDatabase_statusMerge_bug :
    getPodsFromDatabase gDef [basePodRec, podStatusRec] "default" [] = .error unmarshalErrMsg
    ∧ getPodsFromDatabase gDef [basePodRec] "default" [] = .ok [basePodRec] :=
  ⟨rfl, rfl⟩

/-- C2 (code_bug evaluation): the `all` pseudo-type query does hand node
records to reconstruction, but `ParseMetaToV1List` has no node branch, so a
node record fails with the unrecognized-type error, exactly like a type
outside the six; only the five kinds pod, service, secret, configmap,
endpoints reconstruct. -/
theorem parseMetaToV1List_node_unrecognized :
    ParseMetaToV1List [nodeRec] = .error "Parsing failed, unrecognized type: node. "
    ∧ QueryDataFromDatabase gDef [nodeRec] "all" [] = .ok [nodeRec]
    ∧ ParseMetaToV1List [⟨"default/widget/w", "widget", Json.obj []⟩] =
        .error "Parsing failed, unrecognized type: widget. " :=
  ⟨rfl, rfl, rfl⟩

/-- C3 (code_bug evaluation): the synthetic `List` container accumulator is
shared by the five kind blocks of `JSONYamlPrint`, so with two pods and two
services the pod container holds the two pods but the service container
holds all four items — the two pods again, followed by the two services —
contradicting the claim that a kind's container holds exactly that kind's
items. -/
theorem jsonYamlPrint_list_accumulation_bug :
    JSONYamlPrint [podRecA, podRecB, svcRec1, svcRec2] =
      .ok [Emit.listOf
            [{ apiVersion := "v1", kind := "pod",
               metadata := Json.obj [("name", Json.str "a")], spec := Json.obj [],
               status := Json.obj [("phase", Json.str "Running")] },
             { apiVersion := "v1", kind := "pod",
               metadata := Json.obj [("name", Json.str "b")], spec := Json.obj [],
               status := Json.obj [("phase", Json.str "Running")] }],
           Emit.listOf
            [{ apiVersion := "v1", kind := "pod",
               metadata := Json.obj [("name", Json.str "a")], spec := Json.obj [],
               status := Json.obj [("phase", Json.str "Running")] },
             { apiVersion := "v1", kind := "pod",
               metadata := Json.obj [("name", Json.str "b")], spec := Json.obj [],
               status := Json.obj [("phase", Json.str "Running")] },
             { apiVersion := "v1", kind := "service",
               metadata := Json.obj [("name", Json.str "s1")], spec := Json.obj [],
               status := Json.obj [] },
             { apiVersion := "v1", kind := "service",
               metadata := Json.obj [("name", Json.str "s2")], spec := Json.obj [],
               status := Json.obj [] }]]
    ∧ JSONYamlPrint [podRecB] =
        .ok [Emit.single
              { apiVersion := "v1", kind := "pod",
                metadata := Json.obj [("name", Json.str "b")], spec := Json.obj [],
                status := Json.null }] :=
  ⟨rfl, rfl⟩

/-- C4 (code_bug evaluation): the alias `po` is accepted by validation
(`IsAvailableResources`), but `QueryDataFromDatabase` dispatches on the raw
argument without resolving it through the alias table, so `po` falls into
the default branch and the invocation errors, while the canonical name
`pod` succeeds on the same store. -/
theorem queryData_alias_dispatch_bug :
    IsAvailableResources "po" = true
    ∧ QueryDataFromDatabase gDef [basePodRec] "po" [] =
        .error "Query from database filed, type: po,namespaces: default. "
    ∧ QueryDataFromDatabase gDef [basePodRec] "pod" [] = .ok [basePodRec] :=
  ⟨rfl, rfl, rfl⟩

/-- C5: on record lists whose documents are objects with an object-valued
`metadata` and a labels section that is absent, `null`, or an object, the
selector filter keeps exactly the records satisfying `keepDoc`: a record
with no labels section is kept regardless of the clauses, and otherwise a
record is kept iff every clause holds — an `Exist = true` clause `K==V`
requires label `K` present with string value `V` (absent `K` drops the
record), an `Exist = false` clause `K!=V` holds whenever the value of `K`
differs from `V` (absent `K` keeps the record). -/
theorem filterSelector_keeps_matching (data : List Meta) (sel : String)
    (clauses : List Selector)
    (hwf : ∀ r ∈ data, docOk r.value = true)
    (hp : SplitSelectorParameters sel = .ok clauses) :
    FilterSelector data sel = .ok (data.filter (fun r => keepDoc clauses r.value)) := by
  unfold FilterSelector
  rw [hp]
  simpa using filterLoop_wellformed clauses data [] [] (by simp [keysNodup]) hwf

/-- Witness for C5, the spec's end-to-end selector scenario: selector
`env=prod,tier!=cache` over five records keeps the two `env=prod,tier=web`
records and the two label-less records and drops the `tier=cache` one. -/
theorem filterSelector_keeps_matching_witness :
    FilterSelector [rW1, rW2, rC, rN1, rN2] "env=prod,tier!=cache" =
      .ok [rW1, rW2, rN1, rN2] := by
  have h := filterSelector_keeps_matching [rW1, rW2, rC, rN1, rN2] "env=prod,tier!=cache"
    [⟨"env", "prod", true⟩, ⟨"tier", "cache", false⟩] (by decide) rfl
  exact h.trans (by rfl)

/-- C6 counterexample: the term `a==` contains the operator `==` and splits
into the sides `a` and the empty string, yet parsing succeeds (with an
empty clause value) instead of failing, refuting the claim that a term must
split into two non-empty sides. -/
theorem splitSelector_empty_side_accepted :
    SplitSelectorParameters "a==" = .ok [⟨"a", "", true⟩]
    ∧ goSplit "a==" "==" = ["a", ""] :=
  ⟨rfl, rfl⟩

/-- C6 amended: splitting on `,` and testing each term for `==`, then `!=`,
then `=` (the first operator found determining the clause), the parse fails
iff some term's first-found operator occurs more than once (the term splits
into more than two parts); sides are allowed to be empty, and otherwise the
clauses are exactly the per-term clauses in order. -/
theorem splitSelector_error_characterization (args : String) :
    ((∃ e, SplitSelectorParameters args = .error e) ↔
      ∃ t ∈ goSplit args ",", termBad t = true)
    ∧ ((∀ t ∈ goSplit args ",", termBad t = false) →
        SplitSelectorParameters args = .ok ((goSplit args ",").filterMap termClauseOpt)) := by
  constructor
  · exact selLoop_error_iff (goSplit args ",") []
  · intro h
    simpa using selLoop_ok_of_noBad (goSplit args ",") [] h

/-- Witness for C6: a well-formed selector parses to its clause list, and a
selector with a doubled operator fails. -/
theorem splitSelector_error_characterization_witness :
    SplitSelectorParameters "k==v,a!=b" = .ok [⟨"k", "v", true⟩, ⟨"a", "b", false⟩]
    ∧ (∃ e, SplitSelectorParameters "x==y==z" = .error e) := by
  constructor
  · have h := (splitSelector_error_characterization "k==v,a!=b").2 (by decide)
    exact h.trans (by rfl)
  · exact (splitSelector_error_characterization "x==y==z").1.mpr ⟨"x==y==z", by decide⟩

/-- C7: for every resource type served by `getSingleResourceFromDatabase`
(configmap, secret, endpoints, service) and for the pod/node loops, a
returned record's key parses to the requested namespace whenever the
all-namespaces flag is off; with the flag on, the namespace test disappears
in all three retrieval paths — the single-resource scan is filtered by name
only, the pod/node queries do not depend on the requested namespace at all,
and a successful pod/node query returns the name-only-filtered scan — so
records of every namespace are returned. -/
theorem query_namespace_scoping (g : GetOptions) (store : List Meta) (resNS : String)
    (resNames : List String) (resType : String) :
    (g.AllNamespace = false →
      (∀ r ∈ getSingleResourceFromDatabase g store resNS resNames resType,
        parseResourceEdgeNamespace r.key = resNS)
      ∧ (∀ out, getPodsFromDatabase g store resNS resNames = .ok out →
          ∀ r ∈ out, parseResourceEdgeNamespace r.key = resNS)
      ∧ (∀ out, getNodeFromDatabase g store resNS resNames = .ok out →
          ∀ r ∈ out, parseResourceEdgeNamespace r.key = resNS))
    ∧ (g.AllNamespace = true →
      (getSingleResourceFromDatabase g store resNS resNames resType =
        (queryAllMeta store resType).filter
          (fun v => !(!resNames.isEmpty && !IsExistName resNames v.key)))
      ∧ (∀ resNS2,
          getPodsFromDatabase g store resNS resNames = getPodsFromDatabase g store resNS2 resNames
          ∧ getNodeFromDatabase g store resNS resNames = getNodeFromDatabase g store resNS2 resNames)
      ∧ (∀ out, getPodsFromDatabase g store resNS resNames = .ok out →
          out = (queryAllMeta store ResourceTypePod).filter
            (fun v => !(!resNames.isEmpty && !IsExistName resNames v.key)))
      ∧ (∀ out, getNodeFromDatabase g store resNS resNames = .ok out →
          out = (queryAllMeta store ResourceTypeNode).filter
            (fun v => !(!resNames.isEmpty && !IsExistName resNames v.key)))) := by
  constructor
  · intro hA
    refine ⟨?_, ?_, ?_⟩
    · intro r hr
      rw [getSingleResourceFromDatabase, List.mem_filter] at hr
      have h2 := hr.2
      rw [hA] at h2
      simp only [Bool.not_false, Bool.and_true, Bool.and_eq_true, Bool.not_eq_true',
        bne_eq_false_iff_eq] at h2
      exact h2.1
    · intro out hout r hr
      unfold getPodsFromDatabase at hout
      rcases statusMergeLoop_ns g store resNS resNames ResourceTypePod ResourceTypePodStatus
        (queryAllMeta store ResourceTypePod) [] [] [] out hout (by simp) r hr with h | h
      · exact h
      · rw [hA] at h; exact absurd h (by simp)
    · intro out hout r hr
      unfold getNodeFromDatabase at hout
      rcases statusMergeLoop_ns g store resNS resNames ResourceTypeNode ResourceTypeNodeStatus
        (queryAllMeta store ResourceTypeNode) [] [] [] out hout (by simp) r hr with h | h
      · exact h
      · rw [hA] at h; exact absurd h (by simp)
  · intro hA
    refine ⟨?_, ?_, ?_, ?_⟩
    · unfold getSingleResourceFromDatabase
      refine List.filter_congr ?_
      intro v hv
      rw [hA]
      simp
    · intro resNS2
      constructor
      · unfold getPodsFromDatabase
        rw [statusMergeLoop_allNamespaces g store resNS resNames ResourceTypePod
            ResourceTypePodStatus hA,
          statusMergeLoop_allNamespaces g store resNS2 resNames ResourceTypePod
            ResourceTypePodStatus hA]
      · unfold getNodeFromDatabase
        rw [statusMergeLoop_allNamespaces g store resNS resNames ResourceTypeNode
            ResourceTypeNodeStatus hA,
          statusMergeLoop_allNamespaces g store resNS2 resNames ResourceTypeNode
            ResourceTypeNodeStatus hA]
    · intro out hout
      unfold getPodsFromDatabase at hout
      rw [statusMergeLoop_allNamespaces g store resNS resNames ResourceTypePod
        ResourceTypePodStatus hA] at hout
      split at hout
      · simp only [List.nil_append, Except.ok.injEq] at hout
        exact hout.symm
      · exact Except.noConfusion hout
    · intro out hout
      unfold getNodeFromDatabase at hout
      rw [statusMergeLoop_allNamespaces g store resNS resNames ResourceTypeNode
        ResourceTypeNodeStatus hA] at hout
      split at hout
      · simp only [List.nil_append, Except.ok.injEq] at hout
        exact hout.symm
      · exact Except.noConfusion hout

/-- Witness for C7: with the all-namespaces flag, a configmap scan returns
records of both `default` and `other`, and a pod query for the unused
namespace `zzz` still returns the pods of both namespaces; without the
flag, only the `default` record is returned and its key parses to
`default`. -/
theorem query_namespace_scoping_witness :
    getSingleResourceFromDatabase ⟨true, "default", "", ""⟩ [cmDefault, cmOther]
      "default" [] "configmap" = [cmDefault, cmOther]
    ∧ getPodsFromDatabase ⟨true, "default", "", ""⟩ [basePodRec, podOther] "zzz" [] =
        .ok [basePodRec, podOther]
    ∧ parseResourceEdgeNamespace cmDefault.key = "default" := by
  refine ⟨?_, ?_, ?_⟩
  · have h := (query_namespace_scoping ⟨true, "default", "", ""⟩ [cmDefault, cmOther]
      "default" [] "configmap").2 rfl
    exact h.1.trans (by rfl)
  · have h := (query_namespace_scoping ⟨true, "default", "", ""⟩ [basePodRec, podOther]
      "zzz" [] "configmap").2 rfl
    exact ((h.2.1 "default").1).trans (by rfl)
  · have h := (query_namespace_scoping gDef [cmDefault, cmOther]
      "default" [] "configmap").1 rfl
    refine h.1 cmDefault ?_
    rw [show getSingleResourceFromDatabase gDef [cmDefault, cmOther] "default" [] "configmap"
      = [cmDefault] from rfl]
    simp

/-- C8 (code_bug evaluation): the scratch decode map of `ParseMetaToV1List`
is shared across loop iterations, so a pod document with no `status`
section inherits the `status` of the previous record (`phase: Running`
below), whereas reconstructing the same record as a singleton list yields
an empty (`null`) status — reconstruction is not record-wise. -/
theorem parseMetaToV1List_stale_section_bug :
    ParseMetaToV1List [podRecA, podRecB] =
      .ok ([{ apiVersion := "v1", kind := "pod",
              metadata := Json.obj [("name", Json.str "a")], spec := Json.obj [],
              status := Json.obj [("phase", Json.str "Running")] },
            { apiVersion := "v1", kind := "pod",
              metadata := Json.obj [("name", Json.str "b")], spec := Json.obj [],
              status := Json.obj [("phase", Json.str "Running")] }],
           [], [], [], [])
    ∧ ParseMetaToV1List [podRecB] =
        .ok ([{ apiVersion := "v1", kind := "pod",
                metadata := Json.obj [("name", Json.str "b")], spec := Json.obj [],
                status := Json.null }],
             [], [], [], []) :=
  ⟨rfl, rfl⟩

/-- C9 counterexample: a record whose valid-JSON document has no top-level
`metadata` key makes `FilterSelector` fail the single-return type assertion
`jsonValue["metadata"].(map[string]interface{})` — a runtime panic, not a
returned error. -/
theorem filterSelector_missing_metadata_crashes :
    FilterSelector [⟨"default/pod/x", "pod", Json.obj [("spec", Json.obj [])]⟩] "a=b" =
      .crash "interface conversion" :=
  rfl

/-- C9 amended: `FilterSelector` returns a filtered list or an error — never
panics — for record lists whose documents are JSON objects with an
object-valued `metadata` whose labels section is absent, `null`, or an
object; outside that shape (top-level `metadata` absent or not an object,
or a non-null non-object labels value under at least one clause) the
evaluation panics instead of returning an error. -/
theorem filterSelector_total_on_wellformed (data : List Meta) (sel : String)
    (hwf : ∀ r ∈ data, docOk r.value = true) :
    ∀ m, FilterSelector data sel ≠ .crash m := by
  intro m
  unfold FilterSelector
  rcases hp : SplitSelectorParameters sel with e | cl
  · simp
  · show filterLoop cl data [] [] ≠ GoResult.crash m
    rw [filterLoop_wellformed cl data [] [] (by simp [keysNodup]) hwf]
    simp

/-- Witness for C9: a label-less but well-formed record list never makes the
filter panic. -/
theorem filterSelector_total_on_wellformed_witness :
    FilterSelector [rN1] "env=prod" ≠ .crash "interface conversion" :=
  filterSelector_total_on_wellformed [rN1] "env=prod" (by decide) "interface conversion"

/-- C10: a comma-separated term containing none of `==`, `!=`, `=` is
silently ignored — the whole parse behaves exactly as if the term were
deleted from the term list, so it contributes no clause and never causes a
failure. -/
theorem splitSelector_ignores_operatorless_term (args t : String)
    (ts1 ts2 : List String) (hsplit : goSplit args "," = ts1 ++ t :: ts2)
    (hno : termNoOp t = true) :
    SplitSelectorParameters args = selLoop (ts1 ++ ts2) [] := by
  unfold SplitSelectorParameters
  rw [hsplit]
  exact selLoop_drop_noop hno ts1 ts2 []

/-- Witness for C10: a bare word between two commas (and the empty term a
trailing comma produces) contribute nothing and the parse succeeds. -/
theorem splitSelector_ignores_operatorless_term_witness :
    SplitSelectorParameters "a==b,plain," = .ok [⟨"a", "b", true⟩] := by
  have h := splitSelector_ignores_operatorless_term "a==b,plain," "plain" ["a==b"] [""]
    rfl rfl
  exact h.trans (by rfl)

end KE
